import Mathlib

/-!
Verification of the sentiment aggregation and topic-extraction pipeline.

Shallow embedding of `src/analyzer.py` (`class SentimentAnalyzer`).

Modelling decisions:

* Python strings are Lean `String`s; Python's regex character classes
  `\w`, `\s`, `str.lower()`, `str.strip()`, `str.split()` are modelled on
  their ASCII semantics (`isWordB`, `isSpaceB`, `Char.toLower`, `pyStrip`,
  `pyWordCount`).
* VADER scores are exact rationals (`ℚ`).
* The external collaborators (the VADER `SentimentIntensityAnalyzer`, the
  optional transformers pipeline, the spacy model and the NLTK stopword
  set) are out of scope per the spec; they are parameters of the embedding,
  collected in the `Scorers` structure.  A transformer failure (caught by
  `analyze_text`) is modelled by the transformer returning `none`.
* Python dict items (`post['title']` obtained via `post.get('title', '')`)
  become `Option String` fields; `dict.get` with default becomes
  `Option.getD`.
* `analyze_posts` returns a bare Python list `[]` on empty input and a
  result dict otherwise, so its return type is the sum `AnalyzeResult`.
-/

namespace Sentinel

/-! Character-class models (ASCII semantics of the regex classes and str methods). -/

/-- Model of the regex class `\s` and of the whitespace notion used by
`str.strip()` / `str.split()`: space, tab, newline, carriage return. -/
def isSpaceB (c : Char) : Bool :=
  decide (c.toNat = 32 ∨ c.toNat = 9 ∨ c.toNat = 10 ∨ c.toNat = 13)

/-- Model of the regex class `\w`: `[A-Za-z0-9_]`. -/
def isWordB (c : Char) : Bool :=
  decide ((48 ≤ c.toNat ∧ c.toNat ≤ 57) ∨ (65 ≤ c.toNat ∧ c.toNat ≤ 90) ∨
          (97 ≤ c.toNat ∧ c.toNat ≤ 122) ∨ c.toNat = 95)

/-- Model of Python's `str.lower()` on one character (ASCII): maps `A`-`Z`
to `a`-`z`; this is exactly Lean's `Char.toLower`. -/
def pyLowerChar (c : Char) : Char := c.toLower

/-- Model of Python's `str.lower()`. -/
def pyLower (s : String) : String := ⟨s.data.map pyLowerChar⟩

/-- Model of Python's `str.strip()`: drop whitespace from both ends. -/
def pyStrip (s : String) : String :=
  ⟨((s.data.dropWhile isSpaceB).reverse.dropWhile isSpaceB).reverse⟩

/-- Number of words of Python's `str.split()` (split on whitespace runs,
dropping empty fields): counts maximal non-whitespace runs.  The `Bool`
argument records whether the previous character was non-whitespace. -/
def pyWordCountAux : Bool → List Char → Nat
  | _, [] => 0
  | prevIn, c :: cs =>
    if isSpaceB c then pyWordCountAux false cs
    else (if prevIn then 0 else 1) + pyWordCountAux true cs

/-- Model of Python's `len(s.split())`. -/
def pyWordCount (s : String) : Nat := pyWordCountAux false s.data

/-! Embedding of `preprocess_text` (analyzer.py lines 54-66). -/

/-- A Python value passed to `preprocess_text`: `None`, a string, or any
other (non-string) object.  `preprocess_text` only distinguishes these
three shapes (plus string emptiness). -/
inductive PyVal where
  | vNone
  | vStr (s : String)
  | vOther
deriving DecidableEq

/-- Model of `re.sub(r'http\S+', '', text)`: delete every occurrence of
the literal `http` followed by a maximal nonempty run of non-whitespace
characters.  The `Bool` state is `true` while consuming the `\S+` run of a
match.  `re.sub` scans left to right and resumes after each match, which
is exactly this state machine. -/
def removeUrlsAux : Bool → List Char → List Char
  | _, [] => []
  | false, 'h' :: 't' :: 't' :: 'p' :: d :: rest =>
    if isSpaceB d then 'h' :: 't' :: 't' :: 'p' :: removeUrlsAux false (d :: rest)
    else removeUrlsAux true rest
  | false, c :: cs => c :: removeUrlsAux false cs
  | true, c :: cs => if isSpaceB c then c :: removeUrlsAux false cs else removeUrlsAux true cs

/-- Model of `re.sub` with the URL pattern (analyzer.py line 60). -/
def removeUrls (l : List Char) : List Char := removeUrlsAux false l

/-- Model of the special-character removal (analyzer.py line 62): keep exactly the
word and whitespace characters. -/
def removeSpecial (l : List Char) : List Char :=
  l.filter (fun c => isWordB c || isSpaceB c)

/-- Embedding of `preprocess_text` (analyzer.py lines 54-66): empty string for falsy or
non-string input, else strip URLs, strip special characters, lowercase. -/
def preprocess_text : PyVal → String
  | PyVal.vStr s =>
    if s = "" then ""
    else ⟨(removeSpecial (removeUrls s.data)).map pyLowerChar⟩
  | _ => ""

/-- Shorthand for `preprocess_text` applied to a value that is known to be a string
(as in `extract_topics`, where the inputs come from `post.get(..., '')`). -/
def preprocessStr (s : String) : String := preprocess_text (PyVal.vStr s)

/-! The external collaborators. -/

/-- The four fields of VADER's `polarity_scores` dict. -/
structure PolarityCore where
  compound : ℚ
  pos : ℚ
  neu : ℚ
  neg : ℚ
deriving DecidableEq

/-- The sentiment dict built by `analyze_text`: the VADER fields plus the
optional `transformer_label` / `transformer_score` keys that are only
present when the transformers backend is enabled and succeeds. -/
structure Polarity where
  compound : ℚ
  pos : ℚ
  neu : ℚ
  neg : ℚ
  transformer_label : Option String
  transformer_score : Option ℚ
deriving DecidableEq

/-- The external models held by a `SentimentAnalyzer` instance, out of
scope per the spec and therefore parameters of the embedding:
`sid.polarity_scores`, the optional transformers pipeline (`none` models a
raised-and-caught exception), the spacy model (returning the texts of
`doc.noun_chunks` and `doc.ents`), and the NLTK stopword set. -/
structure Scorers where
  sid : String → PolarityCore
  use_transformers : Bool
  transformer : String → Option (String × ℚ)
  nlp : String → List String × List String
  stopwords : List String

/-- The zero score dict returned for empty input (all four fields 0,
no transformer keys). -/
def zeroPolarity : Polarity := ⟨0, 0, 0, 0, none, none⟩

/-- Embedding of `analyze_text` (analyzer.py lines 35-52): zero scores for falsy or
whitespace-only text, otherwise VADER scores, with transformer fields
merged in when the optional backend is enabled and does not raise
(the text is truncated to 512 characters for the transformer). -/
def analyze_text (a : Scorers) (text : String) : Polarity :=
  if text = "" ∨ pyStrip text = "" then zeroPolarity
  else
    let s := a.sid text
    let base : Polarity := ⟨s.compound, s.pos, s.neu, s.neg, none, none⟩
    if a.use_transformers then
      match a.transformer ⟨text.data.take 512⟩ with
      | some r => { base with transformer_label := some r.1, transformer_score := some r.2 }
      | none => base
    else base

/-! Embedding of `extract_topics` (analyzer.py lines 68-88). -/

/-- Model of the join of a list of strings with a single space separator. -/
def joinSpace : List String → String
  | [] => ""
  | [s] => s
  | s :: rest => s ++ " " ++ joinSpace rest

/-- The corpus string handed to the spacy model:
`" ".join([self.preprocess_text(text) for text in texts])`
(analyzer.py line 70). -/
def corpusOf (texts : List String) : String :=
  joinSpace (texts.map preprocessStr)

/-- The filtered candidate list of `extract_topics` (analyzer.py lines
74-81): noun chunks whose lowercase form is not a stopword and that have
at most 3 whitespace-separated words, followed by named entities whose
lowercase form is not a stopword. -/
def topicCandidates (a : Scorers) (texts : List String) : List String :=
  let all_text := corpusOf texts
  let chunks := (a.nlp all_text).1
  let ents := (a.nlp all_text).2
  chunks.filter (fun c => !(a.stopwords.contains (pyLower c)) && decide (pyWordCount c ≤ 3))
    ++ ents.filter (fun e => !(a.stopwords.contains (pyLower e)))

/-- The insertion step of a stable descending sort by count: the new pair
goes before the first element whose count is not larger.  -/
def insertTopic (p : String × Nat) : List (String × Nat) → List (String × Nat)
  | [] => [p]
  | q :: qs => if p.2 < q.2 then q :: insertTopic p qs else p :: q :: qs

/-- Stable sort by count, descending. -/
def sortTopics : List (String × Nat) → List (String × Nat)
  | [] => []
  | p :: ps => insertTopic p (sortTopics ps)

/-- The items of `Counter(l)` in Python: the distinct elements in first-
encounter order. -/
def counterKeys (l : List String) : List String :=
  l.foldl (fun acc x => if acc.contains x then acc else acc ++ [x]) []

/-- Model of the items of a Python `Counter`: each distinct element with its multiplicity, in
first-encounter order. -/
def counterItems (l : List String) : List (String × Nat) :=
  (counterKeys l).map (fun k => (k, l.count k))

/-- Model of `Counter.most_common`: its `heapq.nlargest` is documented as
equivalent to a stable descending sort followed by truncation. -/
def most_common (l : List (String × Nat)) (n : Nat) : List (String × Nat) :=
  (sortTopics l).take n

/-- Embedding of `extract_topics` (analyzer.py lines 68-88). -/
def extract_topics (a : Scorers) (texts : List String) (top_n : Nat) : List (String × Nat) :=
  most_common (counterItems (topicCandidates a texts)) top_n

/-! Embedding of `analyze_posts` (analyzer.py lines 90-129). -/

/-- An input item: the pipeline reads only `title` and `text`, both
defensively via `post.get(..., '')`, so only those fields are modelled;
a missing key is `none`. -/
structure Post where
  title : Option String
  text : Option String
deriving DecidableEq

/-- The `post['sentiment']` dict attached by `analyze_posts`
(analyzer.py lines 106-110). -/
structure Sentiment where
  title : Polarity
  content : Polarity
  compound : ℚ
deriving DecidableEq

/-- An item after the loop body of `analyze_posts` has annotated it. -/
structure AnnotatedPost where
  post : Post
  sentiment : Sentiment
  sentiment_category : String
deriving DecidableEq

/-- The category thresholds (analyzer.py lines 112-118). -/
def categoryOf (compound : ℚ) : String :=
  if compound ≥ 0.05 then "positive"
  else if compound ≤ -0.05 then "negative"
  else "neutral"

/-- The loop body of `analyze_posts` (analyzer.py lines 95-118): score
title and body, combine with the 70/30 weighting, attach the sentiment
record and the category. -/
def scorePost (a : Scorers) (post : Post) : AnnotatedPost :=
  let title_sentiment := analyze_text a (post.title.getD "")
  let content_sentiment := analyze_text a (post.text.getD "")
  let compound_sentiment := 0.7 * title_sentiment.compound + 0.3 * content_sentiment.compound
  { post := post
    sentiment := ⟨title_sentiment, content_sentiment, compound_sentiment⟩
    sentiment_category := categoryOf compound_sentiment }

/-- The overall-sentiment dict. -/
structure Overall where
  compound : ℚ
  positive : ℚ
  neutral : ℚ
  negative : ℚ
deriving DecidableEq

/-- Embedding of `calculate_overall_sentiment` (analyzer.py lines 131-144). -/
def calculate_overall_sentiment (posts : List AnnotatedPost) : Overall :=
  if posts = [] then ⟨0, 0, 0, 0⟩
  else
    let sentiment_values := posts.map (fun p => p.sentiment.compound)
    let sentiment_categories := posts.map (fun p => p.sentiment_category)
    ⟨sentiment_values.sum / (sentiment_values.length : ℚ),
     (sentiment_categories.count "positive" : ℚ) / (sentiment_categories.length : ℚ),
     (sentiment_categories.count "neutral" : ℚ) / (sentiment_categories.length : ℚ),
     (sentiment_categories.count "negative" : ℚ) / (sentiment_categories.length : ℚ)⟩

/-- The dict built at analyzer.py lines 125-129. -/
structure BatchResult where
  posts : List AnnotatedPost
  topics : List (String × Nat)
  overall_sentiment : Overall
deriving DecidableEq

/-- Return type of `analyze_posts`: the bare list on empty input and a result
dict otherwise; the two shapes are the two constructors. -/
inductive AnalyzeResult where
  | emptyList
  | batch (b : BatchResult)
deriving DecidableEq

/-- Embedding of `analyze_posts` (analyzer.py lines 90-129). -/
def analyze_posts (a : Scorers) (posts : List Post) : AnalyzeResult :=
  if posts = [] then AnalyzeResult.emptyList
  else
    let annotated := posts.map (scorePost a)
    let all_titles := posts.map (fun p => p.title.getD "")
    let all_texts := posts.map (fun p => p.text.getD "")
    let topics := extract_topics a (all_titles ++ all_texts) 10
    AnalyzeResult.batch ⟨annotated, topics, calculate_overall_sentiment annotated⟩

/-- The item list carried by an `analyze_posts` return value (the bare
`[]` carries no items). -/
def resultPosts : AnalyzeResult → List AnnotatedPost
  | AnalyzeResult.emptyList => []
  | AnalyzeResult.batch b => b.posts

/-! Concrete instantiations of the external models, used to evaluate the
pipeline on closed inputs. -/

/-- A trivial instantiation of the external models: every text scores 0,
no transformers backend, the spacy model finds nothing, empty stopword
set. -/
def testScorers : Scorers where
  sid := fun _ => ⟨0, 0, 0, 0⟩
  use_transformers := false
  transformer := fun _ => none
  nlp := fun _ => ([], [])
  stopwords := []

/-- A lexicon stub under which the text `T` has compound score 1 and every
other text has compound score 0. -/
def vaderLike : String → PolarityCore :=
  fun t => if t = "T" then ⟨1, 1, 0, 0⟩ else ⟨0, 0, 1, 0⟩

/-- An instantiation whose spacy model reports the whole corpus as the
single noun chunk. -/
def witnessScorers : Scorers where
  sid := vaderLike
  use_transformers := false
  transformer := fun _ => none
  nlp := fun s => ([s], [])
  stopwords := []

/-- A concrete annotated batch with categories positive, positive,
neutral, negative (the 4-post example of the spec). -/
def demoAnnotated : List AnnotatedPost :=
  [⟨⟨none, none⟩, ⟨zeroPolarity, zeroPolarity, 1⟩, "positive"⟩,
   ⟨⟨none, none⟩, ⟨zeroPolarity, zeroPolarity, 1⟩, "positive"⟩,
   ⟨⟨none, none⟩, ⟨zeroPolarity, zeroPolarity, 0⟩, "neutral"⟩,
   ⟨⟨none, none⟩, ⟨zeroPolarity, zeroPolarity, -1⟩, "negative"⟩]

/-! Character-level lemmas. -/

/-- Arithmetic characterisation of `Char.toLower` on code points. -/
theorem toNat_toLower (c : Char) :
    (Char.toLower c).toNat =
      if 65 ≤ c.toNat ∧ c.toNat ≤ 90 then c.toNat + 32 else c.toNat := by
  by_cases h : 65 ≤ c.toNat ∧ c.toNat ≤ 90
  · rw [if_pos h]
    unfold Char.toLower
    simp only [h, and_self, ge_iff_le, if_true]
    unfold Char.ofNat
    rw [dif_pos (Or.inl (by omega : c.toNat + 32 < 55296))]
    rfl
  · rw [if_neg h]
    unfold Char.toLower
    simp only [ge_iff_le, h, if_false]

/-- Characters are determined by their code points. -/
theorem charEq_of_toNat {a b : Char} (h : a.toNat = b.toNat) : a = b :=
  Char.eq_of_val_eq (UInt32.ext h)

/-- Lowercasing a character is idempotent. -/
theorem pyLowerChar_idem (c : Char) : pyLowerChar (pyLowerChar c) = pyLowerChar c := by
  apply charEq_of_toNat
  unfold pyLowerChar
  rw [toNat_toLower, toNat_toLower]
  split_ifs <;> omega

/-- Lowercasing preserves the word-or-space character class kept by
`removeSpecial`. -/
theorem keep_pyLowerChar {c : Char} (h : (isWordB c || isSpaceB c) = true) :
    (isWordB (pyLowerChar c) || isSpaceB (pyLowerChar c)) = true := by
  unfold isWordB isSpaceB pyLowerChar at *
  rw [toNat_toLower]
  simp only [Bool.or_eq_true, decide_eq_true_eq] at *
  split_ifs <;> omega

/-- Rebuilding a string from its character list is the identity. -/
theorem strMk_data (s : String) : String.mk s.data = s := by
  cases s
  rfl

/-- Mapping a function that fixes every character of a list is the
identity. -/
theorem map_id_of_fixed {l : List Char} (h : ∀ c ∈ l, pyLowerChar c = c) :
    l.map pyLowerChar = l := by
  induction l with
  | nil => rfl
  | cons c cs ih =>
    rw [List.map_cons, h c (by simp), ih (fun x hx => h x (by simp [hx]))]

/-- Unfolding lemma for `preprocess_text` on strings. -/
theorem preprocess_text_str (s : String) :
    preprocess_text (PyVal.vStr s) =
      if s = "" then ""
      else ⟨(removeSpecial (removeUrls s.data)).map pyLowerChar⟩ := rfl

/-- Every character of a normalized text is in the kept class and is
fixed by lowercasing. -/
theorem preprocess_chars (x : PyVal) :
    ∀ c ∈ (preprocess_text x).data,
      (isWordB c || isSpaceB c) = true ∧ pyLowerChar c = c := by
  intro c hc
  cases x with
  | vNone => cases hc
  | vOther => cases hc
  | vStr s =>
    rw [preprocess_text_str] at hc
    split_ifs at hc
    · rw [(rfl : ("" : String).data = [])] at hc
      cases hc
    · obtain ⟨c₀, hc₀, rfl⟩ := List.mem_map.1 hc
      have hkeep : (isWordB c₀ || isSpaceB c₀) = true :=
        (List.mem_filter.1 hc₀).2
      exact ⟨keep_pyLowerChar hkeep, pyLowerChar_idem c₀⟩

/-- A string all of whose characters lowercasing fixes is fixed by
`pyLower`. -/
theorem pyLower_eq_self_of_fixed {s : String}
    (h : ∀ c ∈ s.data, pyLowerChar c = c) : pyLower s = s := by
  unfold pyLower
  rw [map_id_of_fixed h, strMk_data]

/-- C6, counterexample: normalization is not idempotent.  On the input
`HTTPX` the first pass leaves the text alone apart from lowercasing it
(the case-sensitive URL pattern does not match the uppercase text), but
the second pass sees the freshly lowercased `httpx` and deletes it as a
URL. -/
theorem preprocess_not_idem_cex :
    preprocess_text (PyVal.vStr (preprocess_text (PyVal.vStr "HTTPX"))) ≠
      preprocess_text (PyVal.vStr "HTTPX") := by decide

/-- C6 (amended): the text normalizer is total — `None`, the empty string
and non-string input all map to the empty string, and no input raises —
and it is idempotent exactly on those inputs whose normalized form is
unchanged by URL removal (by the counterexample `HTTPX`, whose
normalized form contains a fresh lowercase URL prefix, this restriction
is necessary). -/
theorem preprocess_total_and_idem :
    preprocess_text PyVal.vNone = "" ∧
    preprocess_text PyVal.vOther = "" ∧
    preprocess_text (PyVal.vStr "") = "" ∧
    (∀ x : PyVal,
      removeUrls (preprocess_text x).data = (preprocess_text x).data →
      preprocess_text (PyVal.vStr (preprocess_text x)) = preprocess_text x) := by
  refine ⟨rfl, rfl, rfl, ?_⟩
  intro x h
  by_cases hn : preprocess_text x = ""
  · rw [hn]
    rfl
  · rw [preprocess_text_str, if_neg hn, h]
    unfold removeSpecial
    rw [List.filter_eq_self.2 (fun c hc => (preprocess_chars x c hc).1)]
    rw [map_id_of_fixed (fun c hc => (preprocess_chars x c hc).2), strMk_data]

/-- C6, witness for the amended idempotence: on the plain text
`Check this out` the normalized form is URL-free and normalization is
idempotent. -/
theorem preprocess_idem_witness :
    preprocess_text (PyVal.vStr (preprocess_text (PyVal.vStr "Check this out!"))) =
      preprocess_text (PyVal.vStr "Check this out!") :=
  preprocess_total_and_idem.2.2.2 (PyVal.vStr "Check this out!") (by decide)

/-! Properties of the frequency counter and the stable descending sort. -/

/-- Membership in an insertion step. -/
theorem mem_insertTopic {x p : String × Nat} {l : List (String × Nat)} :
    x ∈ insertTopic p l ↔ x = p ∨ x ∈ l := by
  induction l with
  | nil => simp [insertTopic]
  | cons q qs ih =>
    rw [insertTopic]
    split_ifs
    · rw [List.mem_cons, ih, List.mem_cons]
      tauto
    · rw [List.mem_cons, List.mem_cons]

/-- Sorting does not change membership. -/
theorem mem_sortTopics {x : String × Nat} {l : List (String × Nat)} :
    x ∈ sortTopics l ↔ x ∈ l := by
  induction l with
  | nil => simp [sortTopics]
  | cons p ps ih =>
    rw [sortTopics, mem_insertTopic, ih, List.mem_cons]

/-- Insertion preserves the sorted-by-count-descending invariant. -/
theorem pairwise_insertTopic {p : String × Nat} {l : List (String × Nat)}
    (h : l.Pairwise (fun x y => y.2 ≤ x.2)) :
    (insertTopic p l).Pairwise (fun x y => y.2 ≤ x.2) := by
  induction l with
  | nil => simp [insertTopic]
  | cons q qs ih =>
    rw [List.pairwise_cons] at h
    rw [insertTopic]
    split_ifs with hlt
    · rw [List.pairwise_cons]
      refine ⟨fun x hx => ?_, ih h.2⟩
      rcases mem_insertTopic.1 hx with rfl | hx
      · omega
      · exact h.1 x hx
    · rw [List.pairwise_cons]
      refine ⟨fun x hx => ?_, List.pairwise_cons.2 h⟩
      rcases List.mem_cons.1 hx with rfl | hx
      · omega
      · have := h.1 x hx
        omega

/-- The sort output is sorted by count, descending. -/
theorem pairwise_sortTopics (l : List (String × Nat)) :
    (sortTopics l).Pairwise (fun x y => y.2 ≤ x.2) := by
  induction l with
  | nil => simp [sortTopics]
  | cons p ps ih => exact pairwise_insertTopic ih

/-- Stability of the insertion step: restricted to any fixed count, the
inserted list reads the same as consing the new pair in front. -/
theorem filter_insertTopic (p : String × Nat) (l : List (String × Nat)) (c : Nat) :
    (insertTopic p l).filter (fun q => decide (q.2 = c)) =
      ((p :: l).filter (fun q => decide (q.2 = c))) := by
  induction l with
  | nil => rfl
  | cons q qs ih =>
    rw [insertTopic]
    split_ifs with hlt
    · rw [List.filter_cons, List.filter_cons, List.filter_cons, ih, List.filter_cons]
      split_ifs with h1 h2 h2
      all_goals simp only [decide_eq_true_eq] at *
      omega
    · rfl

/-- Stability of the sort: restricted to any fixed count, the sorted list
reads the same as the input, so ties keep their first-encounter order. -/
theorem filter_sortTopics (l : List (String × Nat)) (c : Nat) :
    (sortTopics l).filter (fun q => decide (q.2 = c)) =
      l.filter (fun q => decide (q.2 = c)) := by
  induction l with
  | nil => rfl
  | cons p ps ih =>
    rw [sortTopics, filter_insertTopic, List.filter_cons, List.filter_cons, ih]

/-- Every key produced by the counter occurs in the counted list. -/
theorem mem_counterKeys {x : String} {l : List String} (h : x ∈ counterKeys l) :
    x ∈ l := by
  suffices H : ∀ (l acc : List String),
      x ∈ l.foldl (fun acc x => if acc.contains x then acc else acc ++ [x]) acc →
      x ∈ acc ∨ x ∈ l by
    rcases H l [] h with h' | h'
    · cases h'
    · exact h'
  intro l
  induction l with
  | nil =>
    intro acc h
    exact Or.inl h
  | cons y ys ih =>
    intro acc h
    rw [List.foldl_cons] at h
    rcases ih _ h with h' | h'
    · split_ifs at h' with hy
      · exact Or.inl h'
      · rcases List.mem_append.1 h' with h' | h'
        · exact Or.inl h'
        · rw [List.mem_singleton] at h'
          exact Or.inr (h' ▸ List.mem_cons_self y ys)
    · exact Or.inr (List.mem_cons_of_mem y h')

/-- Every counter item is a key of the list with its exact multiplicity. -/
theorem mem_counterItems {p : String × Nat} {l : List String}
    (h : p ∈ counterItems l) : p.1 ∈ l ∧ p.2 = l.count p.1 := by
  obtain ⟨k, hk, rfl⟩ := List.mem_map.1 h
  exact ⟨mem_counterKeys hk, rfl⟩

/-- Every surviving topic candidate passed its filter: its lowercase form
is not a stopword, it came out of the spacy model, and when it is a noun
chunk (rather than an entity) it has at most 3 words. -/
theorem mem_topicCandidates {a : Scorers} {texts : List String} {t : String}
    (h : t ∈ topicCandidates a texts) :
    a.stopwords.contains (pyLower t) = false ∧
    (t ∈ (a.nlp (corpusOf texts)).1 ∨ t ∈ (a.nlp (corpusOf texts)).2) ∧
    (t ∈ (a.nlp (corpusOf texts)).2 ∨ pyWordCount t ≤ 3) := by
  simp only [topicCandidates] at h
  rcases List.mem_append.1 h with h | h
  · obtain ⟨hmem, hp⟩ := List.mem_filter.1 h
    simp only [Bool.and_eq_true, Bool.not_eq_true', decide_eq_true_eq] at hp
    exact ⟨hp.1, Or.inl hmem, Or.inr hp.2⟩
  · obtain ⟨hmem, hp⟩ := List.mem_filter.1 h
    simp only [Bool.not_eq_true'] at hp
    exact ⟨hp, Or.inr hmem, Or.inl hmem⟩

/-- C5: `extract_topics` returns at most `top_n` pairs; they are sorted
most frequent first; ties are broken by encounter order (restricting
the sorted candidate counter to any fixed count gives back the counter
in its first-encounter order, and the output is a prefix of that sorted
list); no returned topic's lowercase form is a stopword; and every
returned topic either is a named entity or has at most 3
whitespace-separated words. -/
theorem extract_topics_spec (a : Scorers) (texts : List String) (top_n : Nat) :
    (extract_topics a texts top_n).length ≤ top_n ∧
    (extract_topics a texts top_n).Pairwise (fun x y => y.2 ≤ x.2) ∧
    (∀ c : Nat,
      (sortTopics (counterItems (topicCandidates a texts))).filter
          (fun q => decide (q.2 = c)) =
        (counterItems (topicCandidates a texts)).filter (fun q => decide (q.2 = c))) ∧
    extract_topics a texts top_n =
      (sortTopics (counterItems (topicCandidates a texts))).take top_n ∧
    (∀ p ∈ extract_topics a texts top_n,
      a.stopwords.contains (pyLower p.1) = false ∧
      (p.1 ∈ (a.nlp (corpusOf texts)).2 ∨ pyWordCount p.1 ≤ 3)) := by
  refine ⟨List.length_take_le _ _,
    (pairwise_sortTopics _).sublist (List.take_sublist _ _),
    fun c => filter_sortTopics _ c, rfl, fun p hp => ?_⟩
  have hp1 : p ∈ sortTopics (counterItems (topicCandidates a texts)) :=
    (List.take_sublist _ _).subset hp
  have hp2 := mem_counterItems (mem_sortTopics.1 hp1)
  have hc := mem_topicCandidates hp2.1
  exact ⟨hc.1, hc.2.2⟩

/-- C5, witness: on a concrete run whose model reports the corpus as the
one noun chunk, the returned topic list is short enough and its one
entry is a non-stopword with at most 3 words. -/
theorem extract_topics_spec_witness :
    (extract_topics witnessScorers ["Ab"] 10).length ≤ 10 ∧
    (witnessScorers.stopwords.contains (pyLower "ab") = false ∧
      ("ab" ∈ (witnessScorers.nlp (corpusOf ["Ab"])).2 ∨ pyWordCount "ab" ≤ 3)) :=
  ⟨(extract_topics_spec witnessScorers ["Ab"] 10).1,
   (extract_topics_spec witnessScorers ["Ab"] 10).2.2.2.2 ("ab", 1) (by decide)⟩

/-! Lowercase invariance of the corpus (for C10). -/

/-- Every character of the corpus string is fixed by lowercasing: the
texts are normalized (hence lowercased) before joining, and the join
separator is a space. -/
theorem corpusOf_chars (texts : List String) :
    ∀ c ∈ (corpusOf texts).data, pyLowerChar c = c := by
  unfold corpusOf
  have H : ∀ L : List String, (∀ s ∈ L, ∀ c ∈ s.data, pyLowerChar c = c) →
      ∀ c ∈ (joinSpace L).data, pyLowerChar c = c := by
    intro L
    induction L with
    | nil =>
      intro _ c hc
      cases hc
    | cons s rest ih =>
      intro hL c hc
      cases rest with
      | nil => exact hL s (List.mem_cons_self s []) c hc
      | cons s2 rest2 =>
        rw [show joinSpace (s :: s2 :: rest2) = s ++ " " ++ joinSpace (s2 :: rest2) from rfl,
          String.data_append, String.data_append] at hc
        rcases List.mem_append.1 hc with hc | hc
        · rcases List.mem_append.1 hc with hc | hc
          · exact hL s (List.mem_cons_self _ _) c hc
          · rw [(rfl : (" " : String).data = [' ']), List.mem_singleton] at hc
            rw [hc]
            rfl
        · exact ih (fun x hx => hL x (List.mem_cons_of_mem s hx)) c hc
  apply H
  intro s hs
  obtain ⟨s₀, _, rfl⟩ := List.mem_map.1 hs
  exact fun c hc => (preprocess_chars (PyVal.vStr s₀) c hc).2

/-- C10: assuming the spacy model returns noun chunks and entities that
are verbatim substrings of the document it is given (chunk and entity
texts are spans of the document), every topic string returned by
`extract_topics` is entirely lowercase, because every input text is
lowercased by normalization before the corpus is handed to the model —
so frequency counting can never distinguish two candidates that differ
only in the original texts' casing. -/
theorem extract_topics_lowercase (a : Scorers) (texts : List String) (top_n : Nat)
    (h : ∀ t : String,
      (t ∈ (a.nlp (corpusOf texts)).1 ∨ t ∈ (a.nlp (corpusOf texts)).2) →
      List.IsInfix t.data (corpusOf texts).data) :
    ∀ p ∈ extract_topics a texts top_n, pyLower p.1 = p.1 := by
  intro p hp
  have hp1 : p ∈ sortTopics (counterItems (topicCandidates a texts)) :=
    (List.take_sublist _ _).subset hp
  have hp2 := mem_counterItems (mem_sortTopics.1 hp1)
  have hc := mem_topicCandidates hp2.1
  have hinf := h p.1 hc.2.1
  exact pyLower_eq_self_of_fixed
    (fun c hcc => corpusOf_chars texts c (hinf.subset hcc))

/-- C10, witness: with a model that reports the whole corpus as the one
noun chunk, on the mixed-case input text `Ab` the returned topic is the
lowercase `ab`. -/
theorem extract_topics_lowercase_witness : pyLower "ab" = "ab" := by
  refine extract_topics_lowercase witnessScorers ["Ab"] 10 ?_ ("ab", 1) (by decide)
  intro t ht
  have h1 : (witnessScorers.nlp (corpusOf ["Ab"])).1 = [corpusOf ["Ab"]] := rfl
  have h2 : (witnessScorers.nlp (corpusOf ["Ab"])).2 = ([] : List String) := rfl
  rcases ht with ht | ht
  · rw [h1, List.mem_singleton] at ht
    rw [ht]
  · rw [h2] at ht
    cases ht

/-! Claims about the per-item scorer and the batch aggregator. -/

/-- C7: for empty or whitespace-only input the scorer returns the zero
polarity record.  The statement holds for every instantiation of the
external models, so the result does not depend on (and the code path
does not consult) the underlying scoring model; the returned record has
both optional transformer fields unset (`zeroPolarity`). -/
theorem analyze_text_blank (a : Scorers) (text : String)
    (h : pyStrip text = "") : analyze_text a text = zeroPolarity := by
  unfold analyze_text
  rw [if_pos (Or.inr h)]

/-- C7, witness: the whitespace-only text of a space and a tab scores
zero. -/
theorem analyze_text_blank_witness : analyze_text testScorers " \t " = zeroPolarity :=
  analyze_text_blank testScorers " \t " (by decide)

/-- On non-blank text the compound score produced by `analyze_text` is
exactly the lexicon's compound score (the optional transformer merge
touches only the label/score fields). -/
theorem analyze_text_compound (a : Scorers) (t : String)
    (h : ¬(t = "" ∨ pyStrip t = "")) :
    (analyze_text a t).compound = (a.sid t).compound := by
  unfold analyze_text
  rw [if_neg h]
  cases hu : a.use_transformers
  · rfl
  · simp only [if_true]
    rcases htr : a.transformer ⟨t.data.take 512⟩ with _ | r <;> rfl

/-- C2: the compound sentiment attached to a post is exactly
`0.7 * title_compound + 0.3 * content_compound` — first for every post
in terms of the title/content polarity records the pipeline itself
attaches, and second in terms of the lexicon's own compound scores, for
any lexicon and any pair of title/body texts the lexicon actually scores
(non-blank, so the zero-score shortcut is not taken). -/
theorem weighted_compound :
    (∀ (a : Scorers) (p : Post),
      (scorePost a p).sentiment.compound =
        0.7 * (scorePost a p).sentiment.title.compound +
        0.3 * (scorePost a p).sentiment.content.compound) ∧
    (∀ (a : Scorers) (p : Post) (title body : String),
      p.title = some title → p.text = some body →
      pyStrip title ≠ "" → pyStrip body ≠ "" →
      (scorePost a p).sentiment.compound =
        0.7 * (a.sid title).compound + 0.3 * (a.sid body).compound) := by
  refine ⟨fun a p => rfl, ?_⟩
  intro a p title body ht hb ht1 hb1
  have h1 : ¬(title = "" ∨ pyStrip title = "") := by
    rintro (rfl | h)
    · exact ht1 rfl
    · exact ht1 h
  have h2 : ¬(body = "" ∨ pyStrip body = "") := by
    rintro (rfl | h)
    · exact hb1 rfl
    · exact hb1 h
  show 0.7 * (analyze_text a (p.title.getD "")).compound +
      0.3 * (analyze_text a (p.text.getD "")).compound =
    0.7 * (a.sid title).compound + 0.3 * (a.sid body).compound
  rw [ht, hb]
  simp only [Option.getD_some]
  rw [analyze_text_compound a title h1, analyze_text_compound a body h2]

/-- C2, witness (the spec's own example): a title of compound 1 and a
body of compound 0 give post compound 0.7. -/
theorem weighted_compound_witness :
    (scorePost witnessScorers ⟨some "T", some "B"⟩).sentiment.compound = 0.7 := by
  rw [weighted_compound.2 witnessScorers ⟨some "T", some "B"⟩ "T" "B" rfl rfl
    (by decide) (by decide)]
  rw [show witnessScorers.sid "T" = ⟨1, 1, 0, 0⟩ from by decide,
    show witnessScorers.sid "B" = ⟨0, 0, 1, 0⟩ from by decide]
  norm_num

/-- C3: the category attached to every scored post is derived from its
compound score by the fixed thresholds — `positive` for compound at
least 0.05, `negative` for compound at most -0.05, `neutral` strictly
in between — and the boundary values map as the spec demands. -/
theorem category_thresholds :
    (∀ (a : Scorers) (p : Post),
      (scorePost a p).sentiment_category =
        categoryOf (scorePost a p).sentiment.compound) ∧
    (∀ c : ℚ, 0.05 ≤ c → categoryOf c = "positive") ∧
    (∀ c : ℚ, c ≤ -0.05 → categoryOf c = "negative") ∧
    (∀ c : ℚ, -0.05 < c → c < 0.05 → categoryOf c = "neutral") ∧
    categoryOf 0.05 = "positive" ∧
    categoryOf (-0.05) = "negative" ∧
    categoryOf 0 = "neutral" ∧
    categoryOf 0.0500001 = "positive" := by
  have hpos : ∀ c : ℚ, 0.05 ≤ c → categoryOf c = "positive" := by
    intro c h
    unfold categoryOf
    rw [if_pos h]
  have hneg : ∀ c : ℚ, c ≤ -0.05 → categoryOf c = "negative" := by
    intro c h
    unfold categoryOf
    rw [if_neg (by linarith : ¬(c ≥ 0.05)), if_pos h]
  have hneu : ∀ c : ℚ, -0.05 < c → c < 0.05 → categoryOf c = "neutral" := by
    intro c h1 h2
    unfold categoryOf
    rw [if_neg (by linarith : ¬(c ≥ 0.05)), if_neg (by linarith : ¬(c ≤ -0.05))]
  refine ⟨fun a p => rfl, hpos, hneg, hneu, hpos 0.05 le_rfl, hneg (-0.05) le_rfl,
    hneu 0 (by norm_num) (by norm_num), hpos 0.0500001 (by norm_num)⟩

/-- C3, witness: the thresholds evaluated at the concrete compounds 1,
-1 and 0. -/
theorem category_thresholds_witness :
    categoryOf 1 = "positive" ∧ categoryOf (-1) = "negative" ∧
      categoryOf 0 = "neutral" :=
  ⟨category_thresholds.2.1 1 (by norm_num),
   category_thresholds.2.2.1 (-1) (by norm_num),
   category_thresholds.2.2.2.1 0 (by norm_num) (by norm_num)⟩

/-- The category map only ever produces the three category names. -/
theorem categoryOf_mem (c : ℚ) :
    categoryOf c = "positive" ∨ categoryOf c = "neutral" ∨
      categoryOf c = "negative" := by
  unfold categoryOf
  split_ifs <;> simp

/-- Lists drawn from the three category names have as many elements as
the three category counts combined. -/
theorem count_three_eq_length (l : List String)
    (h : ∀ s ∈ l, s = "positive" ∨ s = "neutral" ∨ s = "negative") :
    l.count "positive" + l.count "neutral" + l.count "negative" = l.length := by
  induction l with
  | nil => rfl
  | cons s rest ih =>
    have hs := h s (List.mem_cons_self s rest)
    have ih' := ih (fun x hx => h x (List.mem_cons_of_mem s hx))
    rcases hs with rfl | rfl | rfl <;>
      simp [List.count_cons] <;> omega

/-- C4: for a nonempty annotated batch the overall compound is the
arithmetic mean of the per-item compounds and each category field is
the fraction of items carrying that category, the three fractions
summing to 1 whenever every item carries one of the three category
names (as every pipeline-annotated item does); for the empty batch all
four fields are 0. -/
theorem overall_sentiment_spec :
    calculate_overall_sentiment [] = ⟨0, 0, 0, 0⟩ ∧
    (∀ posts : List AnnotatedPost, posts ≠ [] →
      (calculate_overall_sentiment posts).compound =
        (posts.map fun p => p.sentiment.compound).sum / (posts.length : ℚ) ∧
      (calculate_overall_sentiment posts).positive =
        ((posts.map fun p => p.sentiment_category).count "positive" : ℚ) /
          (posts.length : ℚ) ∧
      (calculate_overall_sentiment posts).neutral =
        ((posts.map fun p => p.sentiment_category).count "neutral" : ℚ) /
          (posts.length : ℚ) ∧
      (calculate_overall_sentiment posts).negative =
        ((posts.map fun p => p.sentiment_category).count "negative" : ℚ) /
          (posts.length : ℚ) ∧
      ((∀ p ∈ posts, p.sentiment_category = "positive" ∨
          p.sentiment_category = "neutral" ∨ p.sentiment_category = "negative") →
        (calculate_overall_sentiment posts).positive +
          (calculate_overall_sentiment posts).neutral +
          (calculate_overall_sentiment posts).negative = 1)) ∧
    (∀ (a : Scorers) (posts : List Post), posts ≠ [] →
      (calculate_overall_sentiment (posts.map (scorePost a))).positive +
        (calculate_overall_sentiment (posts.map (scorePost a))).neutral +
        (calculate_overall_sentiment (posts.map (scorePost a))).negative = 1) := by
  have main : ∀ posts : List AnnotatedPost, posts ≠ [] →
      (calculate_overall_sentiment posts).compound =
        (posts.map fun p => p.sentiment.compound).sum / (posts.length : ℚ) ∧
      (calculate_overall_sentiment posts).positive =
        ((posts.map fun p => p.sentiment_category).count "positive" : ℚ) /
          (posts.length : ℚ) ∧
      (calculate_overall_sentiment posts).neutral =
        ((posts.map fun p => p.sentiment_category).count "neutral" : ℚ) /
          (posts.length : ℚ) ∧
      (calculate_overall_sentiment posts).negative =
        ((posts.map fun p => p.sentiment_category).count "negative" : ℚ) /
          (posts.length : ℚ) ∧
      ((∀ p ∈ posts, p.sentiment_category = "positive" ∨
          p.sentiment_category = "neutral" ∨ p.sentiment_category = "negative") →
        (calculate_overall_sentiment posts).positive +
          (calculate_overall_sentiment posts).neutral +
          (calculate_overall_sentiment posts).negative = 1) := by
    intro posts hne
    unfold calculate_overall_sentiment
    rw [if_neg hne]
    simp only [List.length_map]
    refine ⟨trivial, trivial, trivial, trivial, ?_⟩
    intro hcat
    have hcount := count_three_eq_length (posts.map fun p => p.sentiment_category)
      (by
        intro s hs
        obtain ⟨p, hp, rfl⟩ := List.mem_map.1 hs
        exact hcat p hp)
    rw [List.length_map] at hcount
    have hlen : (posts.length : ℚ) ≠ 0 :=
      Nat.cast_ne_zero.2 (Nat.pos_iff_ne_zero.1 (List.length_pos.2 hne))
    show ((posts.map fun p => p.sentiment_category).count "positive" : ℚ) /
        (posts.length : ℚ) +
      ((posts.map fun p => p.sentiment_category).count "neutral" : ℚ) /
        (posts.length : ℚ) +
      ((posts.map fun p => p.sentiment_category).count "negative" : ℚ) /
        (posts.length : ℚ) = 1
    rw [div_add_div_same, div_add_div_same]
    rw [show (((posts.map fun p => p.sentiment_category).count "positive" : ℚ) +
        ((posts.map fun p => p.sentiment_category).count "neutral" : ℚ) +
        ((posts.map fun p => p.sentiment_category).count "negative" : ℚ)) =
        ((posts.length : ℚ)) by exact_mod_cast congrArg (Nat.cast : Nat → ℚ) hcount]
    exact div_self hlen
  refine ⟨rfl, main, ?_⟩
  intro a posts hne
  refine (main _ (fun h => hne (List.map_eq_nil_iff.1 h))).2.2.2.2 ?_
  intro p hp
  obtain ⟨q, _, rfl⟩ := List.mem_map.1 hp
  exact categoryOf_mem _

/-- C4, witness (the spec's 4-post example): categories positive,
positive, neutral, negative give fractions summing to 1. -/
theorem overall_sentiment_witness :
    (calculate_overall_sentiment demoAnnotated).positive +
      (calculate_overall_sentiment demoAnnotated).neutral +
      (calculate_overall_sentiment demoAnnotated).negative = 1 :=
  (overall_sentiment_spec.2.1 demoAnnotated (by decide)).2.2.2.2 (by decide)

/-- C1 (amended): on the empty batch `analyze_posts` returns the bare
empty Python list — not the batch record with empty items, empty topics
and zero overall sentiment that the spec promises — and it does so for
every instantiation of the external models, i.e. it short-circuits
before invoking the topic extractor or the per-item scorer. -/
theorem analyze_posts_empty (a : Scorers) :
    analyze_posts a [] = AnalyzeResult.emptyList := rfl

/-- C1, counterexample: the value returned on the empty batch is not the
empty batch record claimed by the spec. -/
theorem analyze_posts_empty_cex :
    analyze_posts testScorers [] ≠
      AnalyzeResult.batch ⟨[], [], ⟨0, 0, 0, 0⟩⟩ := by decide

/-- C8: the items of the batch result are the input items in their
original relative order, for every batch size (on the empty batch the
returned bare list carries no items): stripping the attached annotations
from the result items gives back the input list itself. -/
theorem analyze_posts_order (a : Scorers) (posts : List Post) :
    (resultPosts (analyze_posts a posts)).map (fun p => p.post) = posts := by
  unfold analyze_posts
  split_ifs with h
  · rw [h]
    rfl
  · show (posts.map (scorePost a)).map (fun p => p.post) = posts
    rw [List.map_map]
    have : ((fun p : AnnotatedPost => p.post) ∘ scorePost a) = id := funext fun p => rfl
    rw [this, List.map_id]

/-- C9: a post missing its `title` key (or its `text` key) is scored
exactly like the same post carrying the empty string in that key — the
defensive `post.get(..., '')` defaults make the pipeline total, so no
input shape raises. -/
theorem missing_field_defaults (a : Scorers) (t s : Option String) :
    ((scorePost a ⟨none, s⟩).sentiment = (scorePost a ⟨some "", s⟩).sentiment ∧
     (scorePost a ⟨none, s⟩).sentiment_category =
       (scorePost a ⟨some "", s⟩).sentiment_category) ∧
    ((scorePost a ⟨t, none⟩).sentiment = (scorePost a ⟨t, some ""⟩).sentiment ∧
     (scorePost a ⟨t, none⟩).sentiment_category =
       (scorePost a ⟨t, some ""⟩).sentiment_category) :=
  ⟨⟨rfl, rfl⟩, ⟨rfl, rfl⟩⟩

end Sentinel
